import Mathlib

/-!
Verification of the cupy excerpt: the special-function ufunc definitions in
cupyx/scipy/special/_basic.py and the indexing-primitive conformance tests in
tests/cupy_tests/indexing_tests/test_insert.py.

The ufunc registrations are embedded as literal data (name, type signatures,
one-line routine, preamble string), and the device functions of the tandg/cotdg
preamble are embedded as rational-arithmetic functions parameterized by the
native tan oracle.  The indexing primitives themselves are not part of the
excerpted sources, so they are modelled from the spec.
-/

namespace Cupy

/-- Registration data passed to cupy's `create_ufunc`: kernel name, the list of
input-to-output type signatures, the one-line kernel routine, and the preamble
text injected before the kernel. -/
structure UFunc where
  name : String
  types : List String
  routine : String
  preamble : String
deriving DecidableEq, Repr

/-- The `pi180_preamble` string of `_basic.py`: a shared constant PI180
injected into kernel source text. -/
def pi180_preamble : String :=
  "\n    __constant__ double PI180 = 1.74532925199432957692E-2;  // pi/180\n"

/-- The remainder of `tancot_implementation` in `_basic.py` (everything after
the shared `pi180_preamble` it is concatenated onto): the Cephes-derived
tandg/cotdg/tancot device functions. -/
def tancot_body : String :=
  "\n\n\n// include for CUDART_INF\n#include <cupy/math_constants.h>\n\n__constant__ double  lossth = 1.0e14;\n\n__device__ static double tancot(double, int);\n\n__device__ static double tandg(double x)\n\x7b\n    return tancot(x, 0);\n\x7d\n\n\n__device__ static double cotdg(double x)\n\x7b\n    return tancot(x, 1);\n\x7d\n\n\n__device__ static double tancot(double xx, int cotflg)\n\x7b\n    double x;\n    int sign;\n\n    /* make argument positive but save the sign */\n    if (xx < 0) \x7b\n        x = -xx;\n        sign = -1;\n    \x7d\n    else \x7b\n        x = xx;\n        sign = 1;\n    \x7d\n\n    if (x > lossth) \x7b\n        // sf_error(\"tandg\", SF_ERROR_NO_RESULT, NULL);\n        return 0.0;\n    \x7d\n\n    /* modulo 180 */\n    x = x - 180.0 * floor(x / 180.0);\n    if (cotflg) \x7b\n        if (x <= 90.0) \x7b\n            x = 90.0 - x;\n        \x7d else \x7b\n            x = x - 90.0;\n            sign *= -1;\n        \x7d\n    \x7d else \x7b\n        if (x > 90.0) \x7b\n            x = 180.0 - x;\n            sign *= -1;\n        \x7d\n    \x7d\n    if (x == 0.0) \x7b\n        return 0.0;\n    \x7d\n    else if (x == 45.0) \x7b\n        return sign * 1.0;\n    \x7d\n    else if (x == 90.0) \x7b\n        // sf_error((cotflg ? \"cotdg\" : \"tandg\"), SF_ERROR_SINGULAR, NULL);\n        return CUDART_INF;\n    \x7d\n    /* x is now transformed into [0, 90) */\n    return sign * tan(x * PI180);\n\x7d\n"

/-- `tancot_implementation = pi180_preamble + "..."` in `_basic.py`. -/
def tancot_implementation : String := pi180_preamble ++ tancot_body

def log1p : UFunc :=
  ⟨"cupyx_scipy_log1p", ["f->f", "d->d"], "out0 = out0_type(log1p(in0));", ""⟩

def cbrt : UFunc :=
  ⟨"cupyx_scipy_special_cbrt", ["f->f", "d->d"], "out0 = cbrt(in0)", ""⟩

def exp2 : UFunc :=
  ⟨"cupyx_scipy_special_exp2", ["f->f", "d->d"], "out0 = exp2(in0)", ""⟩

def exp10 : UFunc :=
  ⟨"cupyx_scipy_special_exp10", ["f->f", "d->d"], "out0 = exp10(in0)", ""⟩

def expm1 : UFunc :=
  ⟨"cupyx_scipy_special_expm1", ["f->f", "d->d"], "out0 = expm1(in0)", ""⟩

def cosdg : UFunc :=
  ⟨"cupyx_scipy_special_cosdg", ["f->f", "d->d"], "out0 = cos(PI180 * in0)",
    pi180_preamble⟩

def sindg : UFunc :=
  ⟨"cupyx_scipy_special_sindg", ["f->f", "d->d"], "out0 = sin(PI180 * in0)",
    pi180_preamble⟩

def tandg : UFunc :=
  ⟨"cupyx_scipy_special_tandg", ["f->f", "d->d"], "out0 = tandg(in0)",
    tancot_implementation⟩

def cotdg : UFunc :=
  ⟨"cupyx_scipy_special_cotdg", ["f->f", "d->d"], "out0 = cotdg(in0)",
    tancot_implementation⟩

/-- The nine special-function ufuncs of `_basic.py`, in source order. -/
def allUFuncs : List UFunc :=
  [log1p, cbrt, exp2, exp10, expm1, cosdg, sindg, tandg, cotdg]

/-! ### Rational model of the degree-trig device functions

The device code operates on IEEE doubles; it is embedded here over ℚ, with the
native `tan` left as an abstract oracle parameter (the code's only use of the
native math library).  On the inputs the claims quantify over (exact multiples
of 45 below the loss threshold, sign flips), the double computations of the
kernel are exact, so the rational model agrees with the compiled kernel. -/

/-- The constant `PI180 = 1.74532925199432957692E-2` of the preamble. -/
def PI180 : ℚ := 1.74532925199432957692e-2

/-- The `lossth = 1.0e14` threshold constant of `tancot_implementation`. -/
def lossth : ℚ := 1.0e14

/-- A double value as produced by `tancot`: either a finite value or the
positive infinity `CUDART_INF`. -/
inductive CValue where
  | fin (q : ℚ)
  | inf
deriving DecidableEq, Repr

/-- The `x = x - 180.0 * floor(x / 180.0)` modulo-180 step of `tancot`. -/
def reduce180 (x : ℚ) : ℚ := x - 180 * (⌊x / 180⌋ : ℤ)

/-- The final special-case chain of `tancot`: `x2` is the argument after
reduction into [0, 90] and `s2` the accumulated sign. -/
def tancotFinish (tanf : ℚ → ℚ) (x2 s2 : ℚ) : CValue :=
  if x2 = 0 then CValue.fin 0
  else if x2 = 45 then CValue.fin (s2 * 1)
  else if x2 = 90 then CValue.inf
  else CValue.fin (s2 * tanf (x2 * PI180))

/-- The body of `tancot` after the make-argument-positive step: `x0` is the
absolute value of the argument and `s` the saved sign. -/
def tancotRest (tanf : ℚ → ℚ) (x0 s : ℚ) (cotflg : Bool) : CValue :=
  if x0 > lossth then CValue.fin 0
  else
    let x1 : ℚ := reduce180 x0
    if cotflg then
      if x1 ≤ 90 then tancotFinish tanf (90 - x1) s
      else tancotFinish tanf (x1 - 90) (-s)
    else
      if x1 > 90 then tancotFinish tanf (180 - x1) (-s)
      else tancotFinish tanf x1 s

/-- The device function `tancot(double xx, int cotflg)`, parameterized by the
native `tan` oracle. -/
def tancot (tanf : ℚ → ℚ) (xx : ℚ) (cotflg : Bool) : CValue :=
  if xx < 0 then tancotRest tanf (-xx) (-1) cotflg else tancotRest tanf xx 1 cotflg

/-- The device function `tandg(double x) := tancot(x, 0)`. -/
def tandg_dev (tanf : ℚ → ℚ) (x : ℚ) : CValue := tancot tanf x false

/-- The device function `cotdg(double x) := tancot(x, 1)`. -/
def cotdg_dev (tanf : ℚ → ℚ) (x : ℚ) : CValue := tancot tanf x true

/-- The kernel expression `cos(PI180 * in0)` of the `cosdg` ufunc, with the
native `cos` abstract. -/
def cosdg_dev (cosf : ℚ → ℚ) (x : ℚ) : ℚ := cosf (PI180 * x)

/-- The kernel expression `sin(PI180 * in0)` of the `sindg` ufunc, with the
native `sin` abstract. -/
def sindg_dev (sinf : ℚ → ℚ) (x : ℚ) : ℚ := sinf (PI180 * x)

/-- Modelled from the spec: a "direct single native-call evaluation of
tan(x*pi/180)" — what the spec asserts `tandg` amounts to.  A single native
call always yields a finite double, never `CUDART_INF`. -/
def tandgDirect (tanf : ℚ → ℚ) (x : ℚ) : CValue := CValue.fin (tanf (x * PI180))

/-- Modelled from the spec: the reciprocal of a direct single native-call
evaluation of tan(x*pi/180), what the spec asserts `cotdg` amounts to.  The
division follows IEEE semantics: the reciprocal of a (positive) zero tan value
is positive infinity, and of any nonzero finite value the finite quotient. -/
def cotdgDirect (tanf : ℚ → ℚ) (x : ℚ) : CValue :=
  if tanf (x * PI180) = 0 then CValue.inf
  else CValue.fin (1 / tanf (x * PI180))

/-- Final special-case chain with the native call left abstract on the
reduced argument (used to state that the only native-library call of `tancot`
receives the reduced argument times PI180). -/
def tancotFinishAbs (g : ℚ → ℚ) (x2 s2 : ℚ) : CValue :=
  if x2 = 0 then CValue.fin 0
  else if x2 = 45 then CValue.fin (s2 * 1)
  else if x2 = 90 then CValue.inf
  else CValue.fin (s2 * g x2)

/-- Variant of `tancotRest` built on `tancotFinishAbs`. -/
def tancotRestAbs (g : ℚ → ℚ) (x0 s : ℚ) (cotflg : Bool) : CValue :=
  if x0 > lossth then CValue.fin 0
  else
    let x1 : ℚ := reduce180 x0
    if cotflg then
      if x1 ≤ 90 then tancotFinishAbs g (90 - x1) s
      else tancotFinishAbs g (x1 - 90) (-s)
    else
      if x1 > 90 then tancotFinishAbs g (180 - x1) (-s)
      else tancotFinishAbs g x1 s

/-- Variant of `tancot` built on `tancotRestAbs`. -/
def tancotAbs (g : ℚ → ℚ) (xx : ℚ) (cotflg : Bool) : CValue :=
  if xx < 0 then tancotRestAbs g (-xx) (-1) cotflg
  else tancotRestAbs g xx 1 cotflg

/-- A concrete stand-in for the native `tan` oracle, used to instantiate
counterexamples and witnesses (the statements they instantiate hold for every
oracle). -/
def tanSample : ℚ → ℚ := fun q => q

/-- The exception kinds the conformance tests distinguish. -/
inductive Err where
  | valueError
  | indexError
  | typeError
deriving DecidableEq, Repr

/-- An array: its shape and its row-major flat data. -/
structure Arr (α : Type) where
  shape : List Nat
  data : List α
deriving DecidableEq, Repr

/-- Cyclic indexing into a value list ("repeating if necessary"); the
fallback is returned when the list is empty. -/
def cycGet (vals : List α) (k : Nat) (fallback : α) : α :=
  (vals.get? (k % vals.length)).getD fallback

/-- Modelled from the spec: the data walk of the reference library's `place` —
the k-th True position of the mask receives the k-th value, cyclically. -/
def placeData (vals : List α) : List α → List Bool → Nat → List α
  | [], _, _ => []
  | a :: as, [], _ => a :: as
  | a :: as, true :: ms, k => cycGet vals k a :: placeData vals as ms (k + 1)
  | a :: as, false :: ms, k => a :: placeData vals as ms k

/-- Modelled from the spec: the reference library's `place` (named in the
spec's glossary; its implementation is not under src/).  It rejects a mask
whose shape does not match the target, rejects empty values when the mask
selects at least one element, and otherwise writes the values cyclically into
the True positions. -/
def place (a : Arr α) (mask : Arr Bool) (vals : List α) : Except Err (Arr α) :=
  if mask.shape ≠ a.shape then .error .valueError
  else if vals.isEmpty ∧ mask.data.any id then .error .valueError
  else .ok ⟨a.shape, placeData vals a.data mask.data 0⟩

/-- The three index-handling modes of `put`. -/
inductive PutMode where
  | raise
  | wrap
  | clip
deriving DecidableEq, Repr

/-- Mode-string parsing of `put`; an unknown mode string is a TypeError. -/
def parseMode (mode : String) : Option PutMode :=
  if mode = "raise" then some .raise
  else if mode = "wrap" then some .wrap
  else if mode = "clip" then some .clip
  else none

/-- Modelled from the spec: resolution of one (possibly negative) index
against an axis of size `n` under a `put` mode — raise rejects indices below
`-n` or at/above `n`, wrap takes the index modulo `n`, clip clamps into
range (disabling negative indexing). -/
def resolveIdx (n : Nat) (m : PutMode) (i : Int) : Except Err Nat :=
  match m with
  | .raise =>
      if i < -(n : Int) ∨ (n : Int) ≤ i then .error .indexError
      else if i < 0 then .ok (i + n).toNat else .ok i.toNat
  | .wrap => .ok (i.emod n).toNat
  | .clip => .ok (max 0 (min i ((n : Int) - 1))).toNat

/-- Sequential resolution of an index list; the first bad index reports the
error. -/
def resolveAll (n : Nat) (m : PutMode) : List Int → Except Err (List Nat)
  | [] => .ok []
  | i :: is =>
      match resolveIdx n m i with
      | .error e => .error e
      | .ok j =>
          match resolveAll n m is with
          | .error e => .error e
          | .ok js => .ok (j :: js)

/-- Sequential writes of `put`: the k-th resolved index receives the k-th
value, cyclically; later writes overwrite earlier ones. -/
def putWrites (d : List α) (js : List Nat) (vals : List α) : List α :=
  match vals with
  | [] => d
  | v :: vs => js.enum.foldl (fun acc p => acc.set p.2 (cycGet (v :: vs) p.1 v)) d

/-- Modelled from the spec: the reference library's `put` (named in the
spec's glossary; its implementation is not under src/), with its raise/wrap/
clip index-handling modes. -/
def put (a : Arr α) (inds : List Int) (vals : List α) (mode : String) :
    Except Err (Arr α) :=
  match parseMode mode with
  | none => .error .typeError
  | some m =>
      match resolveAll a.data.length m inds with
      | .error e => .error e
      | .ok js => .ok ⟨a.shape, putWrites a.data js vals⟩

/-- The element dtypes the conformance tests range over. -/
inductive DType where
  | bool_
  | int8
  | int16
  | int32
  | int64
  | uint8
  | uint16
  | uint32
  | uint64
  | float16
  | float32
  | float64
  | complex64
  | complex128
deriving DecidableEq, Repr

/-- Classification of a dtype. -/
inductive DClass where
  | boolean
  | signed
  | unsigned
  | floating
  | complexC
deriving DecidableEq, Repr

def dclass : DType → DClass
  | .bool_ => .boolean
  | .int8 | .int16 | .int32 | .int64 => .signed
  | .uint8 | .uint16 | .uint32 | .uint64 => .unsigned
  | .float16 | .float32 | .float64 => .floating
  | .complex64 | .complex128 => .complexC

/-- Storage width in bits of a dtype. -/
def dbits : DType → Nat
  | .bool_ => 8
  | .int8 => 8
  | .int16 => 16
  | .int32 => 32
  | .int64 => 64
  | .uint8 => 8
  | .uint16 => 16
  | .uint32 => 32
  | .uint64 => 64
  | .float16 => 16
  | .float32 => 32
  | .float64 => 64
  | .complex64 => 64
  | .complex128 => 128

/-- Exactly representable integer width of a float format: the mantissa
(including the hidden bit) of a float of the given storage width. -/
def mantissaBits (floatBits : Nat) : Nat :=
  if floatBits = 16 then 11 else if floatBits = 32 then 24 else 53

/-- Modelled from the spec: the reference library's safe-casting predicate
(the "dtype-cast errors ... defined and owned by the reference array library"
which the putmask tests branch on).  A cast is safe when every value of the
source dtype is exactly representable in the destination dtype. -/
def can_cast (f t : DType) : Bool :=
  match dclass f, dclass t with
  | .boolean, _ => true
  | _, .boolean => false
  | .signed, .signed => dbits f ≤ dbits t
  | .signed, .unsigned => false
  | .signed, .floating => dbits f - 1 ≤ mantissaBits (dbits t)
  | .signed, .complexC => dbits f - 1 ≤ mantissaBits (dbits t / 2)
  | .unsigned, .signed => dbits f < dbits t
  | .unsigned, .unsigned => dbits f ≤ dbits t
  | .unsigned, .floating => dbits f ≤ mantissaBits (dbits t)
  | .unsigned, .complexC => dbits f ≤ mantissaBits (dbits t / 2)
  | .floating, .floating => dbits f ≤ dbits t
  | .floating, .complexC => dbits f ≤ dbits t / 2
  | .floating, _ => false
  | .complexC, .complexC => dbits f ≤ dbits t
  | .complexC, _ => false

/-- The data walk of `putmask`: position i receives value `i mod len(values)`
where the mask is True. -/
def putmaskData (vals : List α) (d : List α) (mask : List Bool) : List α :=
  d.enum.map fun p =>
    if mask.getD p.1 false then cycGet vals p.1 p.2 else p.2

/-- Modelled from the spec: the reference library's `putmask` (named in the
spec's glossary; its implementation is not under src/).  It rejects a mask
whose shape differs from the target's, rejects values whose dtype cannot be
safely cast to the target's dtype, and otherwise overwrites the masked
positions in place (the updated array is returned here; the library call
itself returns None). -/
def putmask (adt vdt : DType) (a : Arr α) (mask : Arr Bool) (vals : List α) :
    Except Err (Arr α) :=
  if mask.shape ≠ a.shape then .error .valueError
  else if ¬ can_cast vdt adt then .error .typeError
  else .ok ⟨a.shape, putmaskData vals a.data mask.data⟩

/-- Sum of the cumulative products of a list (the diagonal step computation
for arrays of more than two dimensions). -/
def cumprodSum (l : List Nat) : Nat :=
  (l.foldl (fun (acc : Nat × Nat) n => (acc.1 * n, acc.2 + acc.1 * n)) (1, 0)).2

/-- Strided cyclic write: every position `k * step` below `stop` receives the
k-th value, cyclically. -/
def fillStep (d : List α) (val : List α) (step stop : Nat) : List α :=
  d.enum.map fun p =>
    if p.1 % step = 0 ∧ p.1 < stop then cycGet val (p.1 / step) p.2 else p.2

/-- Modelled from the spec: the reference library's `fill_diagonal` (named in
the spec's glossary; its implementation is not under src/).  It rejects arrays
of fewer than two dimensions, requires all dimensions equal beyond two, steps
by cols+1 in two dimensions (stopping at cols*cols unless wrap is set) and by
one plus the summed cumulative products of the leading dimensions otherwise,
writing the values cyclically. -/
def fill_diagonal (a : Arr α) (val : List α) (wrap : Bool) :
    Except Err (Arr α) :=
  match a.shape with
  | [] => .error .valueError
  | [_] => .error .valueError
  | r :: c :: rest =>
      if rest.isEmpty then
        let step := c + 1
        let stop := if wrap then a.data.length else c * c
        .ok ⟨a.shape, fillStep a.data val step stop⟩
      else if (c :: rest).all (fun n => n = r) then
        let step := 1 + cumprodSum ((r :: c :: rest).dropLast)
        .ok ⟨a.shape, fillStep a.data val step a.data.length⟩
      else .error .valueError

/-- The deterministic 1-based arange the tests build target arrays from. -/
def arangeZ (n : Nat) : List ℤ :=
  (List.range n).map fun i => (i : ℤ) + 1

/-- The target shapes of the place test parameterization. -/
def placeShapes : List (List Nat) := [[7], [2, 3], [4, 3, 2]]

/-- The value counts of the place test parameterization. -/
def placeNVals : List Nat := [0, 1, 3, 15]

/-- The modes of the put test parameterization. -/
def putModes : List String := ["raise", "wrap", "clip"]

/-- The value counts of the put test parameterization. -/
def putNVals : List Nat := [0, 1, 3, 4, 5]

/-- The target shapes of the putmask equal-shape test parameterization. -/
def putmaskShapes : List (List Nat) := [[0], [1], [2, 3], [2, 3, 4]]

/-- The target shapes of the fill_diagonal test parameterization. -/
def fdShapes : List (List Nat) := [[3, 3], [2, 2, 2], [3, 5], [5, 3]]

/-- The diagonal values of the fill_diagonal test parameterization: the
scalars 1 and 0 and the arange arrays of shapes (2,) and (2, 2). -/
def fdVals : List (List ℤ) := [[1], [0], [0, 1], [0, 1, 2, 3]]

/-! ### Helper lemmas for the degree-trig model -/

lemma reduce180_eq_fract (x : ℚ) : reduce180 x = 180 * Int.fract (x / 180) := by
  unfold reduce180 Int.fract
  ring

lemma reduce180_nonneg (x : ℚ) : 0 ≤ reduce180 x := by
  rw [reduce180_eq_fract]
  exact mul_nonneg (by norm_num) (Int.fract_nonneg _)

lemma reduce180_eq (m : ℤ) (r : ℚ) (h0 : 0 ≤ r) (h1 : r < 180) :
    reduce180 (180 * m + r) = r := by
  have hdiv : (180 * (m : ℚ) + r) / 180 = (m : ℚ) + r / 180 := by ring
  have hfr : ⌊(180 * (m : ℚ) + r) / 180⌋ = m := by
    rw [hdiv, Int.floor_eq_iff]
    constructor
    · have : 0 ≤ r / 180 := by positivity
      linarith
    · have : r / 180 < 1 := (div_lt_one (by norm_num)).mpr h1
      linarith

  unfold reduce180
  rw [hfr]
  ring

/-- Evaluation of `tancot` when the argument reduces to 0 modulo 180. -/
lemma tancotRest_at0 (f : ℚ → ℚ) (x0 s : ℚ) (hle : x0 ≤ lossth)
    (h : reduce180 x0 = 0) :
    tancotRest f x0 s false = CValue.fin 0 ∧
      tancotRest f x0 s true = CValue.inf := by
  constructor <;>
    · simp only [tancotRest, tancotFinish, if_neg (not_lt.mpr hle), h]
      norm_num

/-- Evaluation of `tancot` when the argument reduces to 45 modulo 180. -/
lemma tancotRest_at45 (f : ℚ → ℚ) (x0 s : ℚ) (hle : x0 ≤ lossth)
    (h : reduce180 x0 = 45) :
    tancotRest f x0 s false = CValue.fin s ∧
      tancotRest f x0 s true = CValue.fin s := by
  constructor <;>
    · simp only [tancotRest, tancotFinish, if_neg (not_lt.mpr hle), h]
      norm_num

/-- Evaluation of `tancot` when the argument reduces to 90 modulo 180. -/
lemma tancotRest_at90 (f : ℚ → ℚ) (x0 s : ℚ) (hle : x0 ≤ lossth)
    (h : reduce180 x0 = 90) :
    tancotRest f x0 s false = CValue.inf ∧
      tancotRest f x0 s true = CValue.fin 0 := by
  constructor <;>
    · simp only [tancotRest, tancotFinish, if_neg (not_lt.mpr hle), h]
      norm_num

lemma tancot_of_nonneg (f : ℚ → ℚ) (x : ℚ) (hx : 0 ≤ x) (c : Bool) :
    tancot f x c = tancotRest f x 1 c := by
  rcases eq_or_lt_of_le hx with h | h
  · simp [tancot, ← h]
  · simp [tancot, not_lt.mpr hx.le, not_lt.mpr hx]

lemma tancot_of_neg (f : ℚ → ℚ) (x : ℚ) (hx : x < 0) (c : Bool) :
    tancot f x c = tancotRest f (-x) (-1) c := by
  simp [tancot, hx]

/-! ### Claim theorems: the special-function ufuncs -/

/-- C1 counterexample: `tandg` is not a direct single native-call evaluation of
tan(x*pi/180) — at x = 90 the kernel returns `CUDART_INF` from its own
argument-reduction logic, while a direct native call returns the finite value
of the oracle (here the sample oracle).  The disagreement is
oracle-independent, as `c1_delegation` shows. -/
theorem c1_counterexample :
    tandg_dev tanSample 90 ≠ tandgDirect tanSample 90 := by
  have h : tandg_dev tanSample 90 = CValue.inf := by
    norm_num [tandg_dev, tancot, tancotRest, tancotFinish, reduce180, lossth,
      tanSample]
  rw [h, tandgDirect]
  simp

/-- C1 (amended): each of the nine registered kernel routines is a single
one-line body, but for tandg/cotdg that line calls device functions defined in
this repository's preamble, which implement the degree argument reduction
themselves; consequently tandg is not a direct single native-call evaluation
of tan(x*pi/180): for every native-tan oracle, tandg(90) is CUDART_INF while
the direct evaluation is the finite native value; and cotdg(90) is exactly 0
by the repository's special-case chain while the IEEE reciprocal of a direct
native tan evaluation is never 0 (it is positive infinity when the native tan
value is 0, and a finite nonzero quotient otherwise). -/
theorem c1_delegation :
    (allUFuncs.all fun u => !u.routine.data.contains '\n') = true ∧
    (∀ f : ℚ → ℚ,
      tandg_dev f 90 = CValue.inf ∧
      tandgDirect f 90 = CValue.fin (f (90 * PI180)) ∧
      tandg_dev f 90 ≠ tandgDirect f 90 ∧
      cotdg_dev f 90 = CValue.fin 0 ∧
      cotdg_dev f 90 ≠ cotdgDirect f 90) := by
  constructor
  · decide
  · intro f
    have hr90 : reduce180 (90 : ℚ) = 90 := by
      simpa using reduce180_eq 0 90 (by norm_num) (by norm_num)
    have h1 : tandg_dev f 90 = CValue.inf := by
      simp only [tandg_dev]
      rw [tancot_of_nonneg f 90 (by norm_num)]
      exact (tancotRest_at90 f 90 1 (by norm_num [lossth]) hr90).1
    have h2 : cotdg_dev f 90 = CValue.fin 0 := by
      simp only [cotdg_dev]
      rw [tancot_of_nonneg f 90 (by norm_num)]
      exact (tancotRest_at90 f 90 1 (by norm_num [lossth]) hr90).2
    refine ⟨h1, rfl, ?_, h2, ?_⟩
    · rw [h1, tandgDirect]
      simp
    · rw [h2, cotdgDirect]
      split_ifs with hz
      · simp
      · simp [div_eq_zero_iff, hz]
        exact fun h => hz h.symm

/-- C2: all four degree-based trig kernels share the one injected preamble
constant PI180 = 1.74532925199432957692E-2 = pi/180 (cosdg and sindg carry
`pi180_preamble` itself, tandg and cotdg carry it as the prefix of
`tancot_implementation`); cosdg and sindg compute their native call at
PI180 * x, and the single native tan call of tancot receives the reduced
argument times the same PI180. -/
theorem c2_pi180_shared :
    cosdg.preamble = pi180_preamble ∧
    sindg.preamble = pi180_preamble ∧
    tandg.preamble = pi180_preamble ++ tancot_body ∧
    cotdg.preamble = pi180_preamble ++ tancot_body ∧
    PI180 = 174532925199432957692 / 10 ^ 22 ∧
    (∀ (f : ℚ → ℚ) (x : ℚ), cosdg_dev f x = f (PI180 * x)) ∧
    (∀ (f : ℚ → ℚ) (x : ℚ), sindg_dev f x = f (PI180 * x)) ∧
    (∀ (f : ℚ → ℚ) (x : ℚ) (c : Bool),
      tancot f x c = tancotAbs (fun r => f (r * PI180)) x c) :=
  ⟨rfl, rfl, rfl, rfl, by norm_num [PI180], fun f x => rfl, fun f x => rfl,
    fun f x c => rfl⟩

/-- C3: on exact multiples of 45 degrees within the loss threshold, tandg
returns exactly 0 at multiples of 180, exactly sign(x)*1 where the absolute
value is congruent to 45 modulo 180, and positive infinity where x is
congruent to 90 modulo 180 regardless of sign; cotdg swaps the roles of 0
and infinity. -/
theorem c3_exact_multiples (f : ℚ → ℚ) (x : ℚ) (hx : |x| ≤ lossth) :
    ((∃ m : ℤ, x = 180 * m) →
        tandg_dev f x = CValue.fin 0 ∧ cotdg_dev f x = CValue.inf) ∧
    ((∃ m : ℤ, |x| = 45 + 180 * m) →
        tandg_dev f x = CValue.fin (if x < 0 then -1 else 1)) ∧
    ((∃ m : ℤ, x = 90 + 180 * m) →
        tandg_dev f x = CValue.inf ∧ cotdg_dev f x = CValue.fin 0) := by
  refine ⟨?_, ?_, ?_⟩
  · rintro ⟨m, hm⟩
    by_cases hneg : x < 0
    · have hle2 : -x ≤ lossth := by rwa [abs_of_neg hneg] at hx
      have hr : reduce180 (-x) = 0 := by
        have h2 : -x = 180 * ((-m : ℤ) : ℚ) + 0 := by
          push_cast
          linarith
        rw [h2]
        exact reduce180_eq (-m) 0 le_rfl (by norm_num)
      simp only [tandg_dev, cotdg_dev]
      rw [tancot_of_neg f x hneg, tancot_of_neg f x hneg]
      exact tancotRest_at0 f (-x) (-1) hle2 hr
    · push_neg at hneg
      have hle2 : x ≤ lossth := by rwa [abs_of_nonneg hneg] at hx
      have hr : reduce180 x = 0 := by
        have h2 : x = 180 * (m : ℚ) + 0 := by linarith
        rw [h2]
        exact reduce180_eq m 0 le_rfl (by norm_num)
      simp only [tandg_dev, cotdg_dev]
      rw [tancot_of_nonneg f x hneg, tancot_of_nonneg f x hneg]
      exact tancotRest_at0 f x 1 hle2 hr
  · rintro ⟨m, hm⟩
    by_cases hneg : x < 0
    · rw [abs_of_neg hneg] at hm hx
      have hr : reduce180 (-x) = 45 := by
        have h2 : -x = 180 * (m : ℚ) + 45 := by linarith
        rw [h2]
        exact reduce180_eq m 45 (by norm_num) (by norm_num)
      simp only [tandg_dev]
      rw [tancot_of_neg f x hneg, if_pos hneg]
      exact (tancotRest_at45 f (-x) (-1) hx hr).1
    · push_neg at hneg
      rw [abs_of_nonneg hneg] at hm hx
      have hr : reduce180 x = 45 := by
        have h2 : x = 180 * (m : ℚ) + 45 := by linarith
        rw [h2]
        exact reduce180_eq m 45 (by norm_num) (by norm_num)
      simp only [tandg_dev]
      rw [tancot_of_nonneg f x hneg, if_neg (not_lt.mpr hneg)]
      exact (tancotRest_at45 f x 1 hx hr).1
  · rintro ⟨m, hm⟩
    by_cases hneg : x < 0
    · rw [abs_of_neg hneg] at hx
      have hr : reduce180 (-x) = 90 := by
        have h2 : -x = 180 * ((-1 - m : ℤ) : ℚ) + 90 := by
          push_cast
          linarith
        rw [h2]
        exact reduce180_eq (-1 - m) 90 (by norm_num) (by norm_num)
      simp only [tandg_dev, cotdg_dev]
      rw [tancot_of_neg f x hneg, tancot_of_neg f x hneg]
      exact tancotRest_at90 f (-x) (-1) hx hr
    · push_neg at hneg
      rw [abs_of_nonneg hneg] at hx
      have hr : reduce180 x = 90 := by
        have h2 : x = 180 * (m : ℚ) + 90 := by linarith
        rw [h2]
        exact reduce180_eq m 90 (by norm_num) (by norm_num)
      simp only [tandg_dev, cotdg_dev]
      rw [tancot_of_nonneg f x hneg, tancot_of_nonneg f x hneg]
      exact tancotRest_at90 f x 1 hx hr

/-- C3 witness at x = -90: tandg(-90) is positive infinity (not negative) and
cotdg(-90) is exactly 0. -/
theorem c3_witness :
    tandg_dev tanSample (-90) = CValue.inf ∧
      cotdg_dev tanSample (-90) = CValue.fin 0 :=
  (c3_exact_multiples tanSample (-90) (by rw [abs_of_neg] <;> norm_num [lossth])).2.2
    ⟨-1, by push_cast; norm_num⟩

/-- C4: beyond the loss threshold 1.0e14 both tandg and cotdg return 0 for
positive and negative arguments alike, with the error-reporting call disabled
(the embedded kernel source carries it only inside a comment, so the model has
no error outcome). -/
theorem c4_lossth_zero (f : ℚ → ℚ) (x : ℚ) (h : lossth < |x|) :
    tandg_dev f x = CValue.fin 0 ∧ cotdg_dev f x = CValue.fin 0 := by
  by_cases hneg : x < 0
  · rw [abs_of_neg hneg] at h
    simp only [tandg_dev, cotdg_dev]
    rw [tancot_of_neg f x hneg, tancot_of_neg f x hneg]
    constructor <;> · unfold tancotRest; rw [if_pos h]
  · push_neg at hneg
    rw [abs_of_nonneg hneg] at h
    simp only [tandg_dev, cotdg_dev]
    rw [tancot_of_nonneg f x hneg, tancot_of_nonneg f x hneg]
    constructor <;> · unfold tancotRest; rw [if_pos h]

/-- C4 witness at x = -10^15, beyond the loss threshold. -/
theorem c4_witness :
    tandg_dev tanSample (-(10 ^ 15)) = CValue.fin 0 ∧
      cotdg_dev tanSample (-(10 ^ 15)) = CValue.fin 0 :=
  c4_lossth_zero tanSample (-(10 ^ 15))
    (by rw [abs_of_neg] <;> norm_num [lossth])

/-- C10: every one of the nine elementwise special-function ufuncs is
registered with exactly the two real type signatures f->f and d->d, so none
accepts complex input. -/
theorem c10_signatures :
    log1p.types = ["f->f", "d->d"] ∧ cbrt.types = ["f->f", "d->d"] ∧
    exp2.types = ["f->f", "d->d"] ∧ exp10.types = ["f->f", "d->d"] ∧
    expm1.types = ["f->f", "d->d"] ∧ cosdg.types = ["f->f", "d->d"] ∧
    sindg.types = ["f->f", "d->d"] ∧ tandg.types = ["f->f", "d->d"] ∧
    cotdg.types = ["f->f", "d->d"] ∧ allUFuncs.length = 9 :=
  ⟨rfl, rfl, rfl, rfl, rfl, rfl, rfl, rfl, rfl, rfl⟩

/-! ### Helper lemmas for the indexing primitives -/

lemma resolveIdx_err (n : Nat) (m : PutMode) (i : Int) (e : Err)
    (h : resolveIdx n m i = .error e) : e = .indexError := by
  cases m <;> simp only [resolveIdx] at h
  · split_ifs at h <;> simp_all
  · simp_all
  · simp_all

lemma resolveIdx_raise_ok (n : Nat) (i : Int) (h1 : -(n : Int) ≤ i)
    (h2 : i < n) : ∃ j, resolveIdx n .raise i = .ok j := by
  simp only [resolveIdx]
  rw [if_neg (by push_neg; exact ⟨h1, h2⟩)]
  split_ifs <;> exact ⟨_, rfl⟩

lemma resolveIdx_raise_err (n : Nat) (i : Int)
    (h : i < -(n : Int) ∨ (n : Int) ≤ i) :
    resolveIdx n .raise i = .error .indexError := by
  simp only [resolveIdx]
  rw [if_pos h]

lemma resolveAll_ok (n : Nat) (m : PutMode) (inds : List Int)
    (h : ∀ i ∈ inds, ∃ j, resolveIdx n m i = .ok j) :
    ∃ js, resolveAll n m inds = .ok js := by
  induction inds with
  | nil => exact ⟨[], rfl⟩
  | cons i is ih =>
      obtain ⟨j, hj⟩ := h i (List.mem_cons_self i is)
      obtain ⟨js, hjs⟩ := ih fun i' hi' => h i' (List.mem_cons_of_mem _ hi')
      exact ⟨j :: js, by simp [resolveAll, hj, hjs]⟩

lemma resolveAll_err (n : Nat) (m : PutMode) (inds : List Int)
    (h : ∃ i ∈ inds, resolveIdx n m i = .error Err.indexError) :
    resolveAll n m inds = .error .indexError := by
  induction inds with
  | nil => simp at h
  | cons i is ih =>
      rcases h with ⟨i', hi', herr⟩
      rcases List.mem_cons.mp hi' with rfl | hmem
      · simp [resolveAll, herr]
      · cases hhead : resolveIdx n m i with
        | error e =>
            have he := resolveIdx_err n m i e hhead
            subst he
            simp [resolveAll, hhead]
        | ok j =>
            have ht := ih ⟨i', hmem, herr⟩
            simp [resolveAll, hhead, ht]

lemma put_raise_ok (α : Type) (a : Arr α) (inds : List Int) (vals : List α)
    (h : ∀ i ∈ inds, -(a.data.length : Int) ≤ i ∧ i < a.data.length) :
    ∃ r, put a inds vals "raise" = .ok r := by
  obtain ⟨js, hjs⟩ := resolveAll_ok a.data.length .raise inds
    fun i hi => resolveIdx_raise_ok _ i (h i hi).1 (h i hi).2
  exact ⟨⟨a.shape, putWrites a.data js vals⟩, by simp [put, parseMode, hjs]⟩

lemma put_raise_err (α : Type) (a : Arr α) (inds : List Int) (vals : List α)
    (h : ∃ i ∈ inds, i < -(a.data.length : Int) ∨ (a.data.length : Int) ≤ i) :
    put a inds vals "raise" = .error .indexError := by
  have hall : resolveAll a.data.length .raise inds = .error .indexError := by
    rcases h with ⟨i, hi, hor⟩
    exact resolveAll_err _ _ _ ⟨i, hi, resolveIdx_raise_err _ i hor⟩
  simp [put, parseMode, hall]

lemma put_wrapclip_ok (α : Type) (a : Arr α) (inds : List Int) (vals : List α)
    (mode : String) (h : mode = "wrap" ∨ mode = "clip") :
    ∃ r, put a inds vals mode = .ok r := by
  rcases h with rfl | rfl
  · obtain ⟨js, hjs⟩ := resolveAll_ok a.data.length .wrap inds
      fun i _ => ⟨_, rfl⟩
    exact ⟨⟨a.shape, putWrites a.data js vals⟩, by simp [put, parseMode, hjs]⟩
  · obtain ⟨js, hjs⟩ := resolveAll_ok a.data.length .clip inds
      fun i _ => ⟨_, rfl⟩
    exact ⟨⟨a.shape, putWrites a.data js vals⟩, by simp [put, parseMode, hjs]⟩

lemma put_badmode (α : Type) (a : Arr α) (inds : List Int) (vals : List α)
    (mode : String) (h1 : mode ≠ "raise") (h2 : mode ≠ "wrap")
    (h3 : mode ≠ "clip") : put a inds vals mode = .error .typeError := by
  simp [put, parseMode, h1, h2, h3]

lemma place_ok (α : Type) (a : Arr α) (mask : Arr Bool) (vals : List α)
    (hsh : mask.shape = a.shape)
    (hv : vals ≠ [] ∨ mask.data.any id = false) :
    ∃ r, place a mask vals = .ok r := by
  unfold place
  rw [if_neg (not_not_intro hsh)]
  have hc : ¬(vals.isEmpty = true ∧ mask.data.any id = true) := by
    rintro ⟨h1, h2⟩
    rcases hv with hv | hv
    · exact hv (by simpa using h1)
    · rw [hv] at h2
      exact absurd h2 (by simp)
  rw [if_neg hc]
  exact ⟨_, rfl⟩

/-! ### Claim theorems: the indexing-primitive conformance tests -/

/-- C6: on every input configuration enumerated by the test
parameterizations (shapes, modes and value counts; array contents and masks
arbitrary of the tested sizes, with the zero-value place case paired with the
all-false mask the test constructs), the modelled primitive succeeds — and as
the GPU and CPU libraries are both modelled by the one reference semantics the
spec assigns them, the compared results coincide. -/
theorem c6_conformance :
    (∀ s ∈ placeShapes, ∀ nv ∈ placeNVals,
      ∀ (d : List ℤ) (mask : List Bool) (vals : List ℤ),
        d.length = s.prod → mask.length = s.prod → vals.length = nv →
        (nv = 0 → mask.any id = false) →
        ∃ r, place ⟨s, d⟩ ⟨s, mask⟩ vals = .ok r) ∧
    (∀ s ∈ placeShapes, ∀ mode ∈ putModes, ∀ nv ∈ putNVals,
      ∀ (d vals : List ℤ), d.length = s.prod → vals.length = nv →
        ∃ r, put ⟨s, d⟩
          (if mode = "raise" then [2, -1, 3, 0] else [2, -8, 3, 7])
          vals mode = .ok r) ∧
    (∀ s ∈ putmaskShapes, ∀ (d : List ℤ) (mask : List Bool) (vals : List ℤ),
        ∃ r, putmask .int64 .int64 ⟨s, d⟩ ⟨s, mask⟩ vals = .ok r) ∧
    (∀ s ∈ fdShapes, ∀ v ∈ fdVals, ∀ (w : Bool) (d : List ℤ),
        ∃ r, fill_diagonal ⟨s, d⟩ v w = .ok r) := by
  refine ⟨?_, ?_, ?_, ?_⟩
  · intro s _ nv _ d mask vals _ _ hvlen hz
    apply place_ok
    · rfl
    · by_cases h0 : nv = 0
      · exact Or.inr (hz h0)
      · refine Or.inl fun hnil => h0 ?_
        rw [hnil] at hvlen
        exact hvlen.symm
  · intro s hs mode hmode nv _ d vals hd _
    fin_cases hmode
    · simp only [if_pos rfl]
      apply put_raise_ok
      intro i hi
      have hlen : (⟨s, d⟩ : Arr ℤ).data.length = s.prod := hd
      rw [hlen]
      fin_cases hs <;> fin_cases hi <;> decide
    · exact put_wrapclip_ok ℤ _ _ _ _ (Or.inl rfl)
    · exact put_wrapclip_ok ℤ _ _ _ _ (Or.inr rfl)
  · intro s _ d mask vals
    have hcc : can_cast .int64 .int64 = true := rfl
    refine ⟨⟨s, putmaskData vals d mask⟩, ?_⟩
    unfold putmask
    rw [if_neg (not_not_intro rfl), if_neg (by simp [hcc])]
  · intro s hs v _ w d
    fin_cases hs <;> exact ⟨_, rfl⟩

/-- C6 witness: one concrete configuration per primitive. -/
theorem c6_witness :
    (∃ r, place (⟨[2, 3], arangeZ 6⟩ : Arr ℤ)
        ⟨[2, 3], [true, false, true, false, false, true]⟩ [10, 20, 30] =
        .ok r) ∧
    (∃ r, put (⟨[7], arangeZ 7⟩ : Arr ℤ) [2, -8, 3, 7] [10, 20, 30] "wrap" =
        .ok r) ∧
    (∃ r, putmask .int64 .int64 (⟨[2, 3], arangeZ 6⟩ : Arr ℤ)
        ⟨[2, 3], [true, true, false, false, true, true]⟩ [7, 8, 9] = .ok r) ∧
    (∃ r, fill_diagonal (⟨[3, 5], arangeZ 15⟩ : Arr ℤ) [0, 1] true = .ok r) := by
  refine ⟨?_, ?_, ?_, ?_⟩
  · exact c6_conformance.1 [2, 3] (by decide) 3 (by decide) (arangeZ 6)
      [true, false, true, false, false, true] [10, 20, 30] (by decide)
      (by decide) rfl (by decide)
  · have h := c6_conformance.2.1 [7] (by decide) "wrap" (by decide) 3
      (by decide) (arangeZ 7) [10, 20, 30] (by decide) rfl
    simpa using h
  · exact c6_conformance.2.2.1 [2, 3] (by decide) (arangeZ 6)
      [true, true, false, false, true, true] [7, 8, 9]
  · exact c6_conformance.2.2.2 [3, 5] (by decide) [0, 1] (by decide) true
      (arangeZ 15)

/-- C7: put supports exactly the modes raise, wrap and clip — raise reports
IndexError exactly on an index below -size or at/above size, wrap and clip
accept every index list without error, and an unknown mode string is a
TypeError — with GPU and CPU behavior modelled by the one semantics the spec
assigns to both. -/
theorem c7_put_modes :
    (∀ (α : Type) (a : Arr α) (inds : List Int) (vals : List α),
        ((∃ i ∈ inds, i < -(a.data.length : Int) ∨ (a.data.length : Int) ≤ i) →
            put a inds vals "raise" = .error .indexError) ∧
        ((∀ i ∈ inds, -(a.data.length : Int) ≤ i ∧ i < (a.data.length : Int)) →
            ∃ r, put a inds vals "raise" = .ok r)) ∧
    (∀ (α : Type) (a : Arr α) (inds : List Int) (vals : List α)
        (mode : String), mode = "wrap" ∨ mode = "clip" →
          ∃ r, put a inds vals mode = .ok r) ∧
    (∀ (α : Type) (a : Arr α) (inds : List Int) (vals : List α)
        (mode : String), mode ≠ "raise" → mode ≠ "wrap" → mode ≠ "clip" →
          put a inds vals mode = .error .typeError) :=
  ⟨fun α a inds vals =>
      ⟨put_raise_err α a inds vals, put_raise_ok α a inds vals⟩,
    fun α a inds vals mode => put_wrapclip_ok α a inds vals mode,
    fun α a inds vals mode => put_badmode α a inds vals mode⟩

/-- C7 witness: the underflow index -8 raises IndexError on a size-7 array in
raise mode, and an unknown mode string is a TypeError. -/
theorem c7_witness :
    put (⟨[7], arangeZ 7⟩ : Arr ℤ) [2, -8, 3, 0] [1, 2, 3, 4] "raise" =
        .error .indexError ∧
    put (⟨[7], arangeZ 7⟩ : Arr ℤ) [2, -1, 3, 0] [1, 2, 3, 4] "unknown" =
        .error .typeError :=
  ⟨(c7_put_modes.1 ℤ ⟨[7], arangeZ 7⟩ [2, -8, 3, 0] [1, 2, 3, 4]).1
      ⟨-8, by decide, by decide⟩,
    c7_put_modes.2.2 ℤ ⟨[7], arangeZ 7⟩ [2, -1, 3, 0] [1, 2, 3, 4] "unknown"
      (by decide) (by decide) (by decide)⟩

/-- C8: place raises ValueError on a mask whose shape does not match the
target, and on empty values when the mask selects at least one element, for
every element type — with GPU and CPU behavior modelled by the one semantics
the spec assigns to both. -/
theorem c8_place_errors (α : Type) (a : Arr α) (mask : Arr Bool)
    (vals : List α) :
    (mask.shape ≠ a.shape → place a mask vals = .error .valueError) ∧
    (mask.shape = a.shape → vals = [] → mask.data.any id = true →
        place a mask vals = .error .valueError) := by
  constructor
  · intro h
    unfold place
    rw [if_pos h]
  · intro hsh hv hany
    unfold place
    rw [if_neg (not_not_intro hsh), if_pos (by simp [hv, hany])]

/-- C8 witness: a (3, 4) mask against a size-7 target, and empty values
against a selecting mask, both ValueError. -/
theorem c8_witness :
    place (⟨[7], arangeZ 7⟩ : Arr ℤ) ⟨[3, 4], List.replicate 12 false⟩ [9] =
        .error .valueError ∧
    place (⟨[7], arangeZ 7⟩ : Arr ℤ)
        ⟨[7], [true, false, true, false, true, false, true]⟩ ([] : List ℤ) =
        .error .valueError :=
  ⟨(c8_place_errors ℤ ⟨[7], arangeZ 7⟩ ⟨[3, 4], List.replicate 12 false⟩
      [9]).1 (by decide),
    (c8_place_errors ℤ ⟨[7], arangeZ 7⟩
      ⟨[7], [true, false, true, false, true, false, true]⟩ []).2 rfl rfl
      (by decide)⟩

/-- C9: putmask raises ValueError on a mask shape differing from the
target's, TypeError when the values' dtype is not safely castable to the
target's dtype, and otherwise succeeds with the masked positions overwritten
(the in-place library call returns None; the model returns the updated
array) — with GPU and CPU behavior modelled by the one semantics the spec
assigns to both. -/
theorem c9_putmask_errors (α : Type) (adt vdt : DType) (a : Arr α)
    (mask : Arr Bool) (vals : List α) :
    (mask.shape ≠ a.shape → putmask adt vdt a mask vals = .error .valueError) ∧
    (mask.shape = a.shape → can_cast vdt adt = false →
        putmask adt vdt a mask vals = .error .typeError) ∧
    (mask.shape = a.shape → can_cast vdt adt = true →
        putmask adt vdt a mask vals =
          .ok ⟨a.shape, putmaskData vals a.data mask.data⟩) := by
  refine ⟨?_, ?_, ?_⟩
  · intro h
    unfold putmask
    rw [if_pos h]
  · intro hsh hcc
    unfold putmask
    rw [if_neg (not_not_intro hsh), if_pos (by simp [hcc])]
  · intro hsh hcc
    unfold putmask
    rw [if_neg (not_not_intro hsh), if_neg (by simp [hcc])]

/-- C9 witness: an int64-valued write into an int8 target is a TypeError
(numpy.can_cast(int64, int8) is false), and a length-2 mask against a
length-3 target is a ValueError. -/
theorem c9_witness :
    putmask .int8 .int64 (⟨[2, 3], arangeZ 6⟩ : Arr ℤ)
        ⟨[2, 3], List.replicate 6 true⟩ [7, 8, 9] = .error .typeError ∧
    putmask .int64 .int64 (⟨[3], arangeZ 3⟩ : Arr ℤ)
        ⟨[2], [true, false]⟩ [1, 4, 9] = .error .valueError :=
  ⟨(c9_putmask_errors ℤ .int8 .int64 ⟨[2, 3], arangeZ 6⟩
      ⟨[2, 3], List.replicate 6 true⟩ [7, 8, 9]).2.1 rfl rfl,
    (c9_putmask_errors ℤ .int64 .int64 ⟨[3], arangeZ 3⟩
      ⟨[2], [true, false]⟩ [1, 4, 9]).1 (by decide)⟩

end Cupy
